import Mathlib

/-!
# Verification of the ahoy-lsp semantic-analysis core

Shallow embedding of the Go sources of `ahoy-lang/ahoy-lsp`:
the symbol table (scope tree, build walk, lookup, teardown),
the diagnostic passes (constant reassignment, undefined functions,
Levenshtein suggestions, type inference), the protocol boundary
conversions (1-based to 0-based coordinates through `uint32` casts),
the parse-timeout document state, completion in dot context, and the
code-action resource ceilings.

Go machine integers: the protocol coordinates are `uint32`; the cast
`uint32(x)` of a Go `int` is truncation mod 2^32, modelled by
`toUInt32Nat` on `Int`.  Go maps are modelled as association lists with
overwrite-on-insert (`insertSym`); iteration order of a Go map is not
specified, the association-list order is one admissible order and no
theorem below depends on more than that determinization.  A Go `nil`
pointer dereference (a runtime panic) is modelled with `Except Unit`.
-/

namespace AhoyLsp

/-- `uint32(x)` for a Go `int` x: two's-complement truncation mod 2^32,
returned as a `Nat` (the protocol field is unsigned). -/
def toUInt32Nat (i : Int) : Nat := (i % (4294967296 : Int)).toNat

/-! ## Data model: symbols, scopes (from the unnamed symbol-table source file) -/

inductive SymbolKind where
  | variable
  | function
  | parameter
  | enum
  | enumValue
  | struct
  | structField
  | constant
deriving DecidableEq, Repr

/-- `Symbol` from the Go source: name, kind, type, 1-based line, column.
(`EndLine`/`EndColumn` are never written by the analysed code and are
omitted.) -/
structure Symbol where
  name : String
  kind : SymbolKind
  type : String
  line : Int
  column : Int
deriving DecidableEq, Repr

/-- A Go `map[string]*Symbol` as an association list with unique keys. -/
abbrev SymMap := List (String × Symbol)

/-- Go map assignment `m[sym.Name] = sym` (`Scope.AddSymbol`): overwrite
the entry if the key is present, otherwise append it. -/
def insertSym (syms : SymMap) (sym : Symbol) : SymMap :=
  if syms.any (fun p => p.1 = sym.name) then
    syms.map (fun p => if p.1 = sym.name then (p.1, sym) else p)
  else
    syms ++ [(sym.name, sym)]

/-- Go map read `m[name]`. -/
def symLookup (syms : SymMap) (name : String) : Option Symbol :=
  (syms.find? (fun p => p.1 = name)).map (fun p => p.2)

/-- `Scope`: its own symbol map and its completed child scopes.  The Go
parent pointer is represented by position (a zipper during construction,
root-only lookups afterwards), never by ownership, exactly as the source
prescribes.  The `StartLine`/`EndLine` fields are read only by
`FindSymbolAtPosition`, which no claim touches, and are omitted. -/
inductive Scope where
  | mk : SymMap → List Scope → Scope

def Scope.symbols : Scope → SymMap
  | .mk s _ => s

def Scope.childScopes : Scope → List Scope
  | .mk _ c => c

/-- `Scope.Lookup` issued on the global scope: the root has a nil
parent, so only the root's own map is inspected. -/
def Scope.lookupRoot (s : Scope) (name : String) : Option Symbol :=
  symLookup s.symbols name

/-! ## Symbol-table construction (`BuildSymbolTable` / `walkNode`)

During the build the Go code keeps a `CurrentScope` cursor with parent
links.  We model the live chain of open scopes as a list of frames,
head = current scope, last = global scope; `EnterScope` pushes a fresh
frame, `ExitScope` folds the head frame into its parent as a completed
child `Scope`. -/

structure Frame where
  symbols : SymMap
  completed : List Scope

abbrev BuildState := List Frame

def enterScope (st : BuildState) : BuildState := ⟨[], []⟩ :: st

/-- `ExitScope`: a no-op when the current scope is the global scope
(nil parent). -/
def exitScope : BuildState → BuildState
  | [] => []
  | [f] => [f]
  | f :: parent :: rest =>
      { parent with completed := parent.completed ++ [Scope.mk f.symbols f.completed] } :: rest

/-- `SymbolTable.AddSymbol`: insert into the current (head) scope. -/
def addSymbol (st : BuildState) (sym : Symbol) : BuildState :=
  match st with
  | [] => []
  | f :: rest => { f with symbols := insertSym f.symbols sym } :: rest

/-- `Scope.Lookup` from the current scope during construction: walk the
chain of open scopes from innermost to the global scope. -/
def framesLookup : BuildState → String → Option Symbol
  | [], _ => none
  | f :: rest, name =>
      match symLookup f.symbols name with
      | some sym => some sym
      | none => framesLookup rest name

/-! ## AST model (external `ahoy` package node shape) -/

inductive NodeType where
  | program
  | programDeclaration
  | function
  | variableDeclaration
  | assignment
  | constantDeclaration
  | enumDeclaration
  | structDeclaration
  | ifStatement
  | whileLoop
  | forLoop
  | forRangeLoop
  | forCountLoop
  | forInArrayLoop
  | forInDictLoop
  | block
  | call
  | identifier
  | number
  | strLit
  | fString
  | charLit
  | boolean
  | arrayLiteral
  | dictLiteral
  | binaryOp
  | arrayAccess
  | returnStatement
  | other
deriving DecidableEq, Repr

/-- `ahoy.ASTNode`: kind, `Value`, `DataType`, 1-based `Line`, children. -/
inductive ASTNode where
  | mk : NodeType → String → String → Int → List ASTNode → ASTNode

def ASTNode.type : ASTNode → NodeType
  | .mk t _ _ _ _ => t

def ASTNode.value : ASTNode → String
  | .mk _ v _ _ _ => v

def ASTNode.dataType : ASTNode → String
  | .mk _ _ d _ _ => d

def ASTNode.line : ASTNode → Int
  | .mk _ _ _ l _ => l

def ASTNode.children : ASTNode → List ASTNode
  | .mk _ _ _ _ c => c

/-- Go `strings.Contains(s, ".")`: the needle is a single character,
so this is character membership (phrased over the character list so the
kernel can evaluate it). -/
def containsDot (s : String) : Bool := s.toList.any (fun c => c = '.')

/-- `SymbolTable.inferType` (the build-time inference): literals are
typed syntactically, identifiers and calls are resolved through the
scope chain live at this point of the walk; everything else is `""`. -/
def stInferType (frames : BuildState) (node : ASTNode) : String :=
  match node.type with
  | .number => if containsDot node.value then "float" else "int"
  | .strLit => "string"
  | .boolean => "bool"
  | .arrayLiteral => "array"
  | .dictLiteral => "dict"
  | .identifier =>
      match framesLookup frames node.value with
      | some sym => sym.type
      | none => ""
  | .call =>
      match framesLookup frames node.value with
      | some sym => sym.type
      | none => ""
  | _ => ""

/-- Parameter symbols of a function node: the Go loop over
`params.Children` in steps of two (name node, type node); an unpaired
trailing name gets type `""`. -/
def addParams (frames : BuildState) : List ASTNode → BuildState
  | [] => frames
  | [nameNode] =>
      addSymbol frames
        { name := nameNode.value, kind := .parameter, type := ""
          line := nameNode.line, column := 0 }
  | nameNode :: typeNode :: rest =>
      addParams
        (addSymbol frames
          { name := nameNode.value, kind := .parameter, type := typeNode.value
            line := nameNode.line, column := 0 })
        rest

/-- Enum-value symbols: one per `NODE_IDENTIFIER` child, typed with the
enum's name. -/
def addEnumValues (enumName : String) (frames : BuildState) : List ASTNode → BuildState
  | [] => frames
  | child :: rest =>
      let frames' :=
        if child.type = .identifier then
          addSymbol frames
            { name := child.value, kind := .enumValue, type := enumName
              line := child.line, column := 0 }
        else frames
      addEnumValues enumName frames' rest

/-- Struct-field symbols: the Go loop over children in steps of two
(field-name node, field-type node). -/
def addStructFields (frames : BuildState) : List ASTNode → BuildState
  | [] => frames
  | [fieldNode] =>
      addSymbol frames
        { name := fieldNode.value, kind := .structField, type := ""
          line := fieldNode.line, column := 0 }
  | fieldNode :: typeNode :: rest =>
      addStructFields
        (addSymbol frames
          { name := fieldNode.value, kind := .structField, type := typeNode.value
            line := fieldNode.line, column := 0 })
        rest

mutual

/-- `SymbolTable.walkNode`, with its two guards: recursion depth above
1000 aborts the subtree, a child list longer than 1000 aborts the node.
(The guard is defensive in the Go code; the tree argument makes the
recursion structural here.) -/
def walkNode (st : BuildState) (node : ASTNode) (depth : Nat) : BuildState :=
  match node with
  | .mk ntype value dtype line children =>
    if depth > 1000 then st
    else if children.length > 1000 then st
    else
      match ntype with
      | .program => walkNodes st children (depth + 1)
      | .function =>
          let st1 := addSymbol st
            { name := value, kind := .function, type := dtype
              line := line, column := 0 }
          let st2 := enterScope st1
          let st3 :=
            match children with
            | [] => st2
            | params :: _ => addParams st2 params.children
          let st4 :=
            match children with
            | _ :: body :: _ => walkNode st3 body (depth + 1)
            | _ => st3
          exitScope st4
      | .variableDeclaration | .assignment =>
          -- infer the missing type from the initializer, then register
          -- (overwrite) a *variable* symbol in the current scope, then
          -- walk the initializer
          let varType :=
            if dtype = "" then
              match children with
              | [] => dtype
              | v :: _ => stInferType st v
            else dtype
          let st1 := addSymbol st
            { name := value, kind := .variable, type := varType
              line := line, column := 0 }
          (match children with
           | [] => st1
           | v :: _ => walkNode st1 v (depth + 1))
      | .enumDeclaration =>
          let st1 := addSymbol st
            { name := value, kind := .enum, type := "enum"
              line := line, column := 0 }
          addEnumValues value st1 children
      | .structDeclaration =>
          let st1 := addSymbol st
            { name := value, kind := .struct, type := "struct"
              line := line, column := 0 }
          addStructFields st1 children
      | .constantDeclaration =>
          let constType :=
            if dtype = "" then
              match children with
              | [] => dtype
              | v :: _ => stInferType st v
            else dtype
          addSymbol st
            { name := value, kind := .constant, type := constType
              line := line, column := 0 }
      | .ifStatement | .whileLoop | .forLoop | .forRangeLoop
      | .forCountLoop | .forInArrayLoop | .forInDictLoop =>
          -- enter a scope; for-in-array loops additionally register the
          -- loop variable at type "any"; walk the children; exit
          let st1 := enterScope st
          let st2 :=
            if ntype = .forInArrayLoop then
              match children with
              | [] => st1
              | loopVar :: _ =>
                  if loopVar.type = .identifier then
                    addSymbol st1
                      { name := loopVar.value, kind := .variable, type := "any"
                        line := loopVar.line, column := 0 }
                  else st1
            else st1
          exitScope (walkNodes st2 children (depth + 1))
      | .block => walkNodes st children (depth + 1)
      | _ => walkNodes st children (depth + 1)

/-- The per-child loop of `walkNode`: each child walked at the depth the
caller passed (already incremented). -/
def walkNodes (st : BuildState) (nodes : List ASTNode) (depth : Nat) : BuildState :=
  match nodes with
  | [] => st
  | n :: rest => walkNodes (walkNode st n depth) rest depth

end

/-- Collapse the frame chain into the global scope (fuelled by the
chain length, which each fold step decreases; after the balanced walk
the chain holds exactly the global frame). -/
def finAux : Nat → BuildState → Scope
  | _, [] => Scope.mk [] []
  | _, [f] => Scope.mk f.symbols f.completed
  | 0, f :: _ => Scope.mk f.symbols f.completed
  | n + 1, f :: g :: rest =>
      finAux n ({ g with completed := g.completed ++ [Scope.mk f.symbols f.completed] } :: rest)

def finalizeState (st : BuildState) : Scope := finAux st.length st

/-- `SymbolTable`: after construction the current-scope cursor is back
at the global scope, so the record keeps the global scope only; `none`
models the nil scopes left behind by `Clear()`. -/
structure SymbolTable where
  globalScope : Option Scope

/-- `NewSymbolTable()`: one empty global scope, current = global. -/
def NewSymbolTable : SymbolTable := ⟨some (Scope.mk [] [])⟩

/-- `BuildSymbolTable(ast)`: empty table for a nil AST, otherwise one
walk from the fresh global frame at depth 0. -/
def BuildSymbolTable : Option ASTNode → SymbolTable
  | none => NewSymbolTable
  | some ast => ⟨some (finalizeState (walkNode [⟨[], []⟩] ast 0))⟩

/-- `SymbolTable.Lookup`: delegates to `CurrentScope.Lookup`.  After a
build the cursor equals the global scope, so this is the root lookup.
After `Clear()` the cursor is nil and the Go code dereferences it —
a runtime panic, modelled as `.error ()`. -/
def SymbolTable.Lookup (st : SymbolTable) (name : String) : Except Unit (Option Symbol) :=
  match st.globalScope with
  | none => .error ()
  | some g => .ok (g.lookupRoot name)

/-- `SymbolTable.Clear()`: empties every scope's map and child list and
nils the `GlobalScope`/`CurrentScope` references.  In the functional
model the recursively cleared scopes are unreachable once both
references are nil, so the cleared table is the table with no scope. -/
def SymbolTable.Clear (_st : SymbolTable) : SymbolTable := ⟨none⟩

/-! ## `GetAllSymbols` / `collectSymbols` (the 1000-symbol cap) -/

/-- The per-scope loop of `collectSymbols`: append the scope's symbols
one at a time, returning as soon as more than 1000 are gathered. -/
def appendCap (syms : SymMap) (acc : List Symbol) : List Symbol :=
  match syms with
  | [] => acc
  | p :: rest =>
      let acc' := acc ++ [p.2]
      if acc'.length > 1000 then acc' else appendCap rest acc'

mutual

/-- `SymbolTable.collectSymbols`: entry guard at more than 1000
gathered symbols, per-symbol early return, then recursion into child
scopes. -/
def collectScope (s : Scope) (acc : List Symbol) : List Symbol :=
  match s with
  | .mk syms children =>
      if acc.length > 1000 then acc
      else
        let acc2 := appendCap syms acc
        if acc2.length > 1000 then acc2
        else collectScopes children acc2

def collectScopes (ss : List Scope) (acc : List Symbol) : List Symbol :=
  match ss with
  | [] => acc
  | c :: cs => collectScopes cs (collectScope c acc)

end

/-- `SymbolTable.GetAllSymbols`: collect from the global scope
(`collectSymbols` returns immediately on the nil scope of a cleared
table). -/
def SymbolTable.GetAllSymbols (st : SymbolTable) : List Symbol :=
  match st.globalScope with
  | none => []
  | some g => collectScope g []

/-! ## Lemmas about the symbol cap -/

theorem appendCap_length_le (syms : SymMap) (acc : List Symbol)
    (h : acc.length ≤ 1000) : (appendCap syms acc).length ≤ 1001 := by
  induction syms generalizing acc with
  | nil => simpa [appendCap] using Nat.le_trans h (by omega)
  | cons p rest ih =>
      rw [appendCap]
      by_cases hgt : (acc ++ [p.2]).length > 1000
      · simp only [hgt, if_pos]
        simp at hgt ⊢
        omega
      · simp only [hgt, if_neg, not_false_iff]
        exact ih _ (by simp at hgt ⊢; omega)

theorem appendCap_length_eq (syms : SymMap) (acc : List Symbol)
    (h : acc.length ≤ 1000) (hfull : 1001 ≤ acc.length + syms.length) :
    (appendCap syms acc).length = 1001 := by
  induction syms generalizing acc with
  | nil => simp [appendCap] at hfull ⊢; omega
  | cons p rest ih =>
      rw [appendCap]
      by_cases hgt : (acc ++ [p.2]).length > 1000
      · simp only [hgt, if_pos]
        simp at hgt ⊢
        omega
      · simp only [hgt, if_neg, not_false_iff]
        refine ih _ (by simp at hgt ⊢; omega) ?_
        simp at hfull ⊢
        omega

mutual

theorem collectScope_length_le (s : Scope) (acc : List Symbol)
    (h : acc.length ≤ 1001) : (collectScope s acc).length ≤ 1001 := by
  match s with
  | .mk syms children =>
      rw [collectScope]
      by_cases h1 : acc.length > 1000
      · simpa [h1] using h
      · simp only [h1, if_neg, not_false_iff]
        by_cases h2 : (appendCap syms acc).length > 1000
        · simpa [h2] using appendCap_length_le syms acc (by omega)
        · simpa [h2] using collectScopes_length_le children (appendCap syms acc) (by omega)

theorem collectScopes_length_le (ss : List Scope) (acc : List Symbol)
    (h : acc.length ≤ 1001) : (collectScopes ss acc).length ≤ 1001 := by
  match ss with
  | [] => simpa [collectScopes] using h
  | c :: cs =>
      rw [collectScopes]
      exact collectScopes_length_le cs _ (collectScope_length_le c acc h)

end

/-- C10. For every symbol table, `GetAllSymbols` returns at most 1001
symbols: collection stops once more than 1000 symbols have been
gathered, so the outline for a larger document is silently truncated. -/
theorem getAllSymbols_length_le_1001 (st : SymbolTable) :
    st.GetAllSymbols.length ≤ 1001 := by
  rw [SymbolTable.GetAllSymbols]
  match st with
  | ⟨none⟩ => simp
  | ⟨some g⟩ => exact collectScope_length_le g [] (by simp)

/-- C10 companion fact (truncation is exact): a global scope holding at
least 1001 symbols yields exactly 1001 collected symbols, so any further
declarations are dropped from the outline. -/
theorem collectScope_truncates (syms : SymMap) (children : List Scope)
    (hfull : 1001 ≤ syms.length) :
    (collectScope (Scope.mk syms children) []).length = 1001 := by
  rw [collectScope]
  have hlen : (appendCap syms ([] : List Symbol)).length = 1001 :=
    appendCap_length_eq syms [] (by simp) (by simpa using hfull)
  rw [if_neg (by simp), if_pos (by omega)]
  exact hlen

/-! ## C2: `Clear()` then `Lookup` -/

/-- A concrete populated table used to exhibit the post-`Clear` fault. -/
def sampleTable : SymbolTable :=
  ⟨some (Scope.mk
    [("x", { name := "x", kind := .variable, type := "int", line := 1, column := 0 })] [])⟩

/-- C2 counterexample: on a concrete table, `Clear()` followed by
`Lookup "x"` does not return none — it dereferences the nil current
scope (a runtime panic, `.error ()`), contradicting the claim that any
post-`Clear` lookup returns none. -/
theorem clear_then_lookup_panics :
    (sampleTable.Clear).Lookup "x" = Except.error () ∧
      (Except.error () : Except Unit (Option Symbol)) ≠ Except.ok none := by
  exact ⟨rfl, by simp⟩

/-- C2 (amended): `Clear()` is idempotent and leaves the table empty
(`GetAllSymbols` finds nothing), but a `Lookup` issued after `Clear()`
hits the nil current scope — a nil-pointer panic in the Go code —
rather than returning none. -/
theorem clear_idempotent_and_inert (st : SymbolTable) (name : String) :
    (st.Clear).Clear = st.Clear ∧
      (st.Clear).GetAllSymbols = [] ∧
      (st.Clear).Lookup name = Except.error () :=
  ⟨rfl, rfl, rfl⟩

/-! ## Levenshtein distance (`levenshteinDistance`) and the
"did you mean" suggestion of `checkUndefinedFunctions`.

The Go function fills the classic DP matrix; `levM s1 s2 i j` is the
matrix entry `matrix[i][j]` (the distance between the first `i` bytes of
`s1` and the first `j` bytes of `s2`).  Go strings are byte arrays; the
analysed names are ASCII identifiers, for which bytes and `Char`s
coincide, so strings are modelled by their character lists. -/

/-- Row `i+1` of the DP matrix, given row `i` as the function `prev`:
`levMRow s1 s2 i prev j = matrix[i+1][j]`.  (Structured as row-by-row
structural recursion so that the kernel can evaluate it; the recurrence
is the one the Go loop fills in.) -/
def levMRow (s1 s2 : List Char) (i : Nat) (prev : Nat → Nat) : Nat → Nat
  | 0 => i + 1
  | j + 1 =>
      min (min (prev (j + 1) + 1) (levMRow s1 s2 i prev j + 1))
        (prev j + (if s1.getD i ' ' = s2.getD j ' ' then 0 else 1))

/-- The DP matrix entry `matrix[i][j]`. -/
def levM (s1 s2 : List Char) : Nat → Nat → Nat
  | 0 => fun j => j
  | i + 1 => levMRow s1 s2 i (levM s1 s2 i)

/-- The defining recurrence of the matrix, as the Go loop computes it:
`min(min(deletion, insertion), substitution)`. -/
theorem levM_succ_succ (s1 s2 : List Char) (i j : Nat) :
    levM s1 s2 (i + 1) (j + 1) =
      min (min (levM s1 s2 i (j + 1) + 1) (levM s1 s2 (i + 1) j + 1))
        (levM s1 s2 i j + (if s1.getD i ' ' = s2.getD j ' ' then 0 else 1)) := rfl

theorem levM_zero (s1 s2 : List Char) (j : Nat) : levM s1 s2 0 j = j := rfl

theorem levM_succ_zero (s1 s2 : List Char) (i : Nat) : levM s1 s2 (i + 1) 0 = i + 1 := rfl

/-- `levenshteinDistance`: the two length-zero shortcuts, then the DP
matrix corner. -/
def levenshteinDistance (s1 s2 : String) : Nat :=
  if s1.length = 0 then s2.length
  else if s2.length = 0 then s1.length
  else levM s1.toList s2.toList s1.length s2.length

theorem levM_symm (s1 s2 : List Char) (i j : Nat) :
    levM s1 s2 i j = levM s2 s1 j i := by
  induction i generalizing j with
  | zero => cases j <;> simp [levM_zero, levM_succ_zero]
  | succ i ih =>
      induction j with
      | zero => simp [levM_zero, levM_succ_zero]
      | succ j ihj =>
          have hc : (if s1.getD i ' ' = s2.getD j ' ' then 0 else 1)
              = (if s2.getD j ' ' = s1.getD i ' ' then 0 else 1) := by
            by_cases h : s1.getD i ' ' = s2.getD j ' '
            · rw [if_pos h, if_pos h.symm]
            · rw [if_neg h, if_neg (Ne.symm h)]
          rw [levM_succ_succ, levM_succ_succ]
          rw [ih (j + 1), ihj, ih j, hc, Nat.min_comm (levM s2 s1 (j + 1) i + 1)]

theorem levM_eq_zero_iff (s1 s2 : List Char) :
    ∀ i j, i ≤ s1.length → j ≤ s2.length →
      (levM s1 s2 i j = 0 ↔ (i = j ∧ s1.take i = s2.take j)) := by
  intro i
  induction i with
  | zero =>
      intro j hi hj
      cases j with
      | zero => simp [levM_zero]
      | succ j => simp [levM_zero]
  | succ i ih =>
      intro j hi hj
      cases j with
      | zero => simp [levM_succ_zero]
      | succ j =>
          have hi' : i < s1.length := by omega
          have hj' : j < s2.length := by omega
          have hIH := ih j (by omega) (by omega)
          have hgd1 : s1.getD i ' ' = s1[i] := by
            simp [List.getD_eq_getElem?_getD, List.getElem?_eq_getElem hi']
          have hgd2 : s2.getD j ' ' = s2[j] := by
            simp [List.getD_eq_getElem?_getD, List.getElem?_eq_getElem hj']
          have htake1 : s1.take (i + 1) = s1.take i ++ [s1[i]] := by
            rw [List.take_succ, List.getElem?_eq_getElem hi']
            rfl
          have htake2 : s2.take (j + 1) = s2.take j ++ [s2[j]] := by
            rw [List.take_succ, List.getElem?_eq_getElem hj']
            rfl
          rw [levM_succ_succ]
          constructor
          · intro h0
            have h3 : levM s1 s2 i j + (if s1.getD i ' ' = s2.getD j ' ' then 0 else 1) = 0 := by
              rcases Nat.min_eq_zero_iff.mp h0 with h | h
              · rcases Nat.min_eq_zero_iff.mp h with h' | h' <;> omega
              · exact h
            have hsub : levM s1 s2 i j = 0 := by omega
            have hcost : (if s1.getD i ' ' = s2.getD j ' ' then 0 else 1) = 0 := by omega
            obtain ⟨hij, hpre⟩ := hIH.mp hsub
            have hch : s1[i] = s2[j] := by
              by_cases h : s1.getD i ' ' = s2.getD j ' '
              · rw [hgd1, hgd2] at h
                exact h
              · rw [if_neg h] at hcost
                exact absurd hcost one_ne_zero
            refine ⟨by omega, ?_⟩
            rw [htake1, htake2, hpre, hch]
          · rintro ⟨hij, htake⟩
            have hij' : i = j := by omega
            rw [htake1, htake2] at htake
            have hlen : (s1.take i).length = (s2.take j).length := by
              rw [List.length_take, List.length_take]
              omega
            obtain ⟨hpre, hlast⟩ := List.append_inj htake hlen
            have hch : s1[i] = s2[j] := by
              injection hlast
            apply Nat.min_eq_zero_iff.mpr
            right
            have hz : levM s1 s2 i j = 0 := hIH.mpr ⟨hij', hpre⟩
            rw [hz, hgd1, hgd2]
            simp [hch]

theorem levenshteinDistance_symm (a b : String) :
    levenshteinDistance a b = levenshteinDistance b a := by
  unfold levenshteinDistance
  by_cases ha : a.length = 0
  · by_cases hb : b.length = 0
    · rw [if_pos ha, if_pos hb, ha, hb]
    · rw [if_pos ha, if_neg hb, if_pos ha]
  · by_cases hb : b.length = 0
    · rw [if_neg ha, if_pos hb, if_pos hb]
    · rw [if_neg ha, if_neg hb, if_neg hb, if_neg ha, levM_symm]

theorem levenshteinDistance_eq_zero_iff (a b : String) :
    levenshteinDistance a b = 0 ↔ a = b := by
  have hdata : ∀ s t : String, s.data = t.data → s = t := by
    intro s t h
    cases s
    cases t
    simp_all
  unfold levenshteinDistance
  by_cases ha : a.length = 0
  · rw [if_pos ha]
    constructor
    · intro h
      apply hdata
      rw [List.length_eq_zero.mp ha, List.length_eq_zero.mp h]
    · intro h
      subst h
      exact ha
  · rw [if_neg ha]
    by_cases hb : b.length = 0
    · rw [if_pos hb]
      constructor
      · intro h
        exact absurd h ha
      · intro h
        subst h
        exact absurd hb ha
    · rw [if_neg hb]
      rw [levM_eq_zero_iff a.toList b.toList a.length b.length (Nat.le_refl _) (Nat.le_refl _)]
      constructor
      · rintro ⟨hlen, htake⟩
        apply hdata
        have h1 : a.toList.take a.length = a.toList := List.take_length a.toList
        have h2 : b.toList.take b.length = b.toList := List.take_length b.toList
        rw [h1, h2] at htake
        exact htake
      · intro h
        subst h
        exact ⟨rfl, rfl⟩

/-! ### `findSimilarFunction` and the suggestion condition -/

/-- The scan loop of `findSimilarFunction`, carrying the best match and
best distance (initially `("", 1000000)`); a strictly smaller distance
replaces the pair. -/
def findSimilarFunctionGo (name : String) :
    List String → (String × Nat) → (String × Nat)
  | [], best => best
  | funcName :: rest, (bestMatch, bestDistance) =>
      if levenshteinDistance name funcName < bestDistance then
        findSimilarFunctionGo name rest (funcName, levenshteinDistance name funcName)
      else
        findSimilarFunctionGo name rest (bestMatch, bestDistance)

/-- `findSimilarFunction`: most similar name and its distance. -/
def findSimilarFunction (name : String) (availableFuncs : List String) : String × Nat :=
  findSimilarFunctionGo name availableFuncs ("", 1000000)

/-- The length-scaled suggestion threshold of `checkUndefinedFunctions`:
3, or name-length/3 (Go integer division) once the name is longer
than 10. -/
def suggestionThreshold (funcName : String) : Nat :=
  if funcName.length > 10 then funcName.length / 3 else 3

/-- The suggestion appended by `checkUndefinedFunctions`: the closest
name, if its distance is within the threshold and it is non-empty
(`distance <= threshold && similarFunc != ""`). -/
def didYouMean (funcName : String) (availableFuncs : List String) : Option String :=
  match findSimilarFunction funcName availableFuncs with
  | (similarFunc, distance) =>
      if distance ≤ suggestionThreshold funcName ∧ similarFunc ≠ "" then some similarFunc
      else none

theorem findSimilarFunctionGo_inv (name : String) (funcs : List String)
    (best : String × Nat)
    (h : best = ("", 1000000) ∨ levenshteinDistance name best.1 = best.2) :
    findSimilarFunctionGo name funcs best = ("", 1000000) ∨
      levenshteinDistance name (findSimilarFunctionGo name funcs best).1 =
        (findSimilarFunctionGo name funcs best).2 := by
  induction funcs generalizing best with
  | nil => simpa [findSimilarFunctionGo] using h
  | cons f rest ih =>
      obtain ⟨bm, bd⟩ := best
      rw [findSimilarFunctionGo]
      by_cases hlt : levenshteinDistance name f < bd
      · rw [if_pos hlt]
        exact ih (f, levenshteinDistance name f) (Or.inr rfl)
      · rw [if_neg hlt]
        exact ih (bm, bd) h

/-- C5. The Levenshtein distance is symmetric and zero exactly on equal
strings, and the undefined-function pass appends a "did you mean"
suggestion only for a name within the length-scaled threshold — never a
name whose distance exceeds it. -/
theorem levenshtein_and_suggestion_sound :
    (∀ a b : String, levenshteinDistance a b = levenshteinDistance b a) ∧
    (∀ a b : String, levenshteinDistance a b = 0 ↔ a = b) ∧
    (∀ (name sug : String) (funcs : List String),
        didYouMean name funcs = some sug →
        levenshteinDistance name sug ≤ suggestionThreshold name) := by
  refine ⟨levenshteinDistance_symm, levenshteinDistance_eq_zero_iff, ?_⟩
  intro name sug funcs hsug
  have hinv := findSimilarFunctionGo_inv name funcs ("", 1000000) (Or.inl rfl)
  unfold didYouMean findSimilarFunction at hsug
  rcases hgo : findSimilarFunctionGo name funcs ("", 1000000) with ⟨m, d⟩
  rw [hgo] at hsug hinv
  dsimp only at hsug hinv
  by_cases hcond : d ≤ suggestionThreshold name ∧ m ≠ ""
  · rw [if_pos hcond] at hsug
    obtain rfl : m = sug := by injection hsug
    rcases hinv with hinit | hdist
    · exact absurd (congrArg Prod.fst hinit) hcond.2
    · rw [hdist]
      exact hcond.1
  · rw [if_neg hcond] at hsug
    exact absurd hsug (by simp)

/-- C5 witness: at a concrete misspelling (`prnt` against the built-in
list) the pass suggests `print`, and the suggested name is within the
threshold. -/
theorem levenshtein_and_suggestion_sound_witness :
    levenshteinDistance "prnt" "print" ≤ suggestionThreshold "prnt" :=
  levenshtein_and_suggestion_sound.2.2 "prnt" "print" ["print", "sprintf", "ahoy"]
    (by decide)

/-! ## Diagnostics, parse errors, documents -/

/-- `ahoy.ParseError`: 1-based line/column and a message. -/
structure ParseError where
  line : Int
  column : Int
  message : String
deriving DecidableEq, Repr

/-- An LSP diagnostic as the analysed passes fill it: a range of
`uint32` coordinates, message, and the optional stable code (`""` when
absent, as for converted parse errors).  Severity is always Error and
the source tag always `"ahoy"` in every pass, so neither is carried. -/
structure Diagnostic where
  startLine : Nat
  startChar : Nat
  endLine : Nat
  endChar : Nat
  message : String
  code : String
deriving DecidableEq, Repr

/-- `Document`: content, the cached line split, AST, parse errors and
symbol table (nil-able, as in the Go struct).  URI, version and token
list play no part in any claim and are omitted. -/
structure Document where
  content : String
  lines : List String
  ast : Option ASTNode
  errors : List ParseError
  symbolTable : Option SymbolTable

/-- The `lineText` extraction every pass repeats:
`doc.Lines[line-1]` guarded by `line > 0 && line <= len(doc.Lines)`. -/
def lineTextAt (lines : List String) (line : Int) : String :=
  if line > 0 ∧ line ≤ lines.length then lines.getD (line - 1).toNat "" else ""

/-- The `endChar` fallback every pass repeats: the line length, or the
given fallback when the line is empty. -/
def endCharFor (lineText : String) (fallback : Nat) : Nat :=
  if lineText.length = 0 then fallback else lineText.length

/-- The diagnostic shape shared by the semantic passes: full-line range
on `uint32(line - 1)`, start character 0. -/
def mkDiag (line : Int) (endChar : Nat) (message code : String) : Diagnostic :=
  { startLine := toUInt32Nat (line - 1), startChar := 0
    endLine := toUInt32Nat (line - 1), endChar := endChar
    message := message, code := code }

/-! ## `checkConstReassignment` (const reassignment and collisions) -/

mutual

/-- The `checkNode` closure of `checkConstReassignment`: the three
cases (assignment to a constant; variable shadowing an earlier
constant; constant redeclared after an earlier constant), each looking
the name up in the global scope only, then recursion into children. -/
def ccrNode (lines : List String) (g : Scope) (node : ASTNode) : List Diagnostic :=
  match node with
  | .mk ntype value _ line children =>
      let here :=
        match ntype with
        | .assignment =>
            if value ≠ "" then
              match g.lookupRoot value with
              | some sym =>
                  if sym.kind = .constant then
                    [mkDiag line (endCharFor (lineTextAt lines line) (value.length + 10))
                      ("Cannot reassign constant '" ++ value ++ "'") "const-reassignment"]
                  else []
              | none => []
            else []
        | .variableDeclaration =>
            if value ≠ "" then
              match g.lookupRoot value with
              | some sym =>
                  if sym.kind = .constant ∧ sym.line < line then
                    [mkDiag line (endCharFor (lineTextAt lines line) (value.length + 10))
                      ("Cannot declare variable '" ++ value ++ "' - already declared as constant")
                      "variable-const-collision"]
                  else []
              | none => []
            else []
        | .constantDeclaration =>
            if value ≠ "" then
              match g.lookupRoot value with
              | some sym =>
                  if sym.kind = .constant ∧ sym.line < line then
                    [mkDiag line (endCharFor (lineTextAt lines line) (value.length + 10))
                      ("Cannot redeclare constant '" ++ value ++ "'") "const-redeclaration"]
                  else []
              | none => []
            else []
        | _ => []
      here ++ ccrNodes lines g children

def ccrNodes (lines : List String) (g : Scope) (nodes : List ASTNode) : List Diagnostic :=
  match nodes with
  | [] => []
  | n :: rest => ccrNode lines g n ++ ccrNodes lines g rest

end

/-- `checkConstReassignment`: nothing without AST or symbol table.  (A
table whose global scope is nil would make the Go pass dereference nil;
that state is unreachable in the publish pipeline, where tables are
freshly built, and yields the empty list here.) -/
def checkConstReassignment (doc : Document) : List Diagnostic :=
  match doc.ast, doc.symbolTable with
  | some ast, some st =>
      match st.globalScope with
      | some g => ccrNode doc.lines g ast
      | none => []
  | _, _ => []

/-! ## C1: the `PI :: 3.14159` / `PI: 1` scenario -/

/-- The AST of a source declaring constant `PI` on line 1 and assigning
`PI: 1` on line 2. -/
def piAst : ASTNode :=
  .mk .program "" "" 0
    [.mk .constantDeclaration "PI" "" 1 [.mk .number "3.14159" "" 1 []],
     .mk .assignment "PI" "" 2 [.mk .number "1" "" 2 []]]

def piDoc : Document :=
  { content := "PI :: 3.14159\nPI: 1"
    lines := ["PI :: 3.14159", "PI: 1"]
    ast := some piAst
    errors := []
    symbolTable := some (BuildSymbolTable (some piAst)) }

/-- C1.  Evaluating the pass at the claimed scenario: the diagnostic
pass produces NO `const-reassignment` diagnostic (the claim and the
spec scenario require exactly one at line 2), because the symbol-table
walk registered the line-2 assignment as a *variable* symbol,
overwriting the constant entry for `PI`, so the pass's global-scope
lookup no longer sees a constant. -/
theorem const_reassignment_scenario_is_silent :
    checkConstReassignment piDoc = [] ∧
      (BuildSymbolTable (some piAst)).Lookup "PI"
        = .ok (some { name := "PI", kind := .variable, type := "int", line := 2, column := 0 }) :=
  ⟨rfl, rfl⟩

/-! ## Type inference of the diagnostic passes (`inferExpressionType`) -/

/-- `inferExpressionType` from the diagnostics source file: literals
typed syntactically; identifiers and calls yield `"unknown"` (the code
reads "Could look up in symbol table, for now return unknown"); binary
operations promote through their operands.  (The Go arithmetic branch
falls through to the comparison check when neither operand is numeric;
the operator sets are disjoint, so the nested conditionals below
compute the same value.) -/
def inferExpressionType (node : ASTNode) : String :=
  match node with
  | .mk ntype value _ _ children =>
      match ntype with
      | .number => if containsDot value then "float" else "int"
      | .strLit | .fString => "string"
      | .charLit => "char"
      | .boolean => "bool"
      | .arrayLiteral => "array"
      | .dictLiteral => "dict"
      | .identifier => "unknown"
      | .call => "unknown"
      | .binaryOp =>
          match children with
          | c1 :: c2 :: _ =>
              let leftType := inferExpressionType c1
              let rightType := inferExpressionType c2
              if value = "+" ∨ value = "-" ∨ value = "*" ∨ value = "/" ∨ value = "%" then
                (if leftType = "float" ∨ rightType = "float" then "float"
                 else if leftType = "int" ∨ rightType = "int" then "int"
                 else "unknown")
              else if value = "<" ∨ value = ">" ∨ value = "<=" ∨ value = ">=" ∨
                  value = "is" ∨ value = "not" then "bool"
              else "unknown"
          | _ => "unknown"
      | .arrayAccess => "unknown"
      | _ => "unknown"

/-- C3 counterexample: `double` is declared with return type `int` and
resolvable through the built symbol table, yet the diagnostic-pass
inference of a call to it yields `"unknown"` — not the symbol's type —
refuting the claim that identifier/call inference during diagnostic
passes resolves through the Symbol Table rather than yielding
"unknown". -/
theorem inferExpressionType_ignores_table :
    inferExpressionType (.mk .call "double" "" 5 []) = "unknown" ∧
      (BuildSymbolTable (some (.mk .program "" "" 0
          [.mk .function "double" "int" 1 []]))).Lookup "double"
        = .ok (some { name := "double", kind := .function, type := "int", line := 1, column := 0 }) ∧
      ("unknown" : String) ≠ "int" :=
  ⟨rfl, rfl, by decide⟩

/-- C3 (amended): during the diagnostic passes, identifier and call
expressions are typed `"unknown"` by `inferExpressionType` with no
symbol-table lookup; only the symbol-table construction's own
`inferType` resolves identifiers and calls through the scope chain. -/
theorem infer_split_between_build_and_passes (node : ASTNode) (frames : BuildState)
    (sym : Symbol) (hk : node.type = .identifier ∨ node.type = .call) :
    inferExpressionType node = "unknown" ∧
      (framesLookup frames node.value = some sym → stInferType frames node = sym.type) := by
  constructor
  · match node with
    | .mk ntype value d l children =>
        rcases hk with h | h <;>
          simp only [ASTNode.type] at h <;> subst h <;> rfl
  · intro hl
    unfold stInferType
    rcases hk with h | h <;> rw [h] <;> rw [hl]

/-- A concrete function symbol `foo : int` and a build state holding
it, used to instantiate the amended C3 statement. -/
def fooSym : Symbol :=
  { name := "foo", kind := .function, type := "int", line := 1, column := 0 }

def fooFrames : BuildState := [⟨[("foo", fooSym)], []⟩]

/-- C3 witness: instantiating the amended statement at a call to `foo`
with `foo : int` in scope resolves to `"int"` at build time while the
pass-side inference stays `"unknown"`. -/
theorem infer_split_between_build_and_passes_witness :
    inferExpressionType (.mk .call "foo" "" 3 []) = "unknown" ∧
      (framesLookup fooFrames "foo" = some fooSym →
        stInferType fooFrames (.mk .call "foo" "" 3 []) = fooSym.type) :=
  infer_split_between_build_and_passes (.mk .call "foo" "" 3 []) fooFrames fooSym
    (Or.inr rfl)

/-! ## `checkUndefinedFunctions` (undefined-call pass) -/

/-- The fixed built-in set. -/
def builtinFunctions : List String := ["print", "sprintf", "ahoy"]

/-- `isBuiltinFunction`: linear scan of the built-in list. -/
def isBuiltinFunction (name : String) : Bool :=
  builtinFunctions.any (fun builtin => builtin = name)

/-- The available names the pass measures distances against: the
built-ins, then the function symbols of the global scope (in map
iteration order, determinized to association order). -/
def availableFunctions (g : Scope) : List String :=
  builtinFunctions ++
    g.symbols.filterMap (fun p => if p.2.kind = .function then some p.2.name else none)

/-- The per-call test of the pass: not a built-in, and the global-scope
lookup yields no symbol of kind function. -/
def undefinedCallFlagged (g : Scope) (funcName : String) : Bool :=
  !isBuiltinFunction funcName &&
    (match g.lookupRoot funcName with
     | none => true
     | some sym => if sym.kind = .function then false else true)

/-- The message, with the conditional "did you mean" suffix. -/
def undefinedFuncMessage (funcName : String) (availableFuncs : List String) : String :=
  match didYouMean funcName availableFuncs with
  | some similarFunc => funcName ++ " func not found" ++ ", did you mean " ++ similarFunc
  | none => funcName ++ " func not found"

/-- The diagnostic the pass emits for one flagged call. -/
def undefinedCallDiag (lines : List String) (funcs : List String)
    (funcName : String) (line : Int) : Diagnostic :=
  mkDiag line (endCharFor (lineTextAt lines line) (funcName.length + 10))
    (undefinedFuncMessage funcName funcs) "undefined-function"

mutual

/-- The `checkNode` closure of `checkUndefinedFunctions`. -/
def cufNode (lines : List String) (g : Scope) (funcs : List String)
    (node : ASTNode) : List Diagnostic :=
  match node with
  | .mk ntype value _ line children =>
      let here :=
        if ntype = .call ∧ undefinedCallFlagged g value = true then
          [undefinedCallDiag lines funcs value line]
        else []
      here ++ cufNodes lines g funcs children

def cufNodes (lines : List String) (g : Scope) (funcs : List String)
    (nodes : List ASTNode) : List Diagnostic :=
  match nodes with
  | [] => []
  | n :: rest => cufNode lines g funcs n ++ cufNodes lines g funcs rest

end

def checkUndefinedFunctions (doc : Document) : List Diagnostic :=
  match doc.ast, doc.symbolTable with
  | some ast, some st =>
      match st.globalScope with
      | some g => cufNode doc.lines g (availableFunctions g) ast
      | none => []
  | _, _ => []

mutual

/-- Specification-side collector: the (name, line) of every `NODE_CALL`
node, in the traversal order of the pass. -/
def callNodes (node : ASTNode) : List (String × Int) :=
  match node with
  | .mk ntype value _ line children =>
      (if ntype = .call then [(value, line)] else []) ++ callNodesList children

def callNodesList (nodes : List ASTNode) : List (String × Int) :=
  match nodes with
  | [] => []
  | n :: rest => callNodes n ++ callNodesList rest

end

mutual

/-- The pass factors through the per-call predicate: it emits exactly
one diagnostic per call node that is neither a built-in nor resolvable
in the global scope as a function symbol, and nothing else. -/
theorem cufNode_eq_filterMap (lines : List String) (g : Scope) (funcs : List String)
    (node : ASTNode) :
    cufNode lines g funcs node =
      (callNodes node).filterMap (fun c =>
        if undefinedCallFlagged g c.1 then some (undefinedCallDiag lines funcs c.1 c.2)
        else none) := by
  match node with
  | .mk ntype value _ line children =>
      rw [cufNode, callNodes, List.filterMap_append]
      rw [cufNodesList_eq_filterMap lines g funcs children]
      by_cases hc : ntype = .call
      · subst hc
        by_cases hf : undefinedCallFlagged g value = true
        · simp [hf]
        · simp [hf]
      · simp [hc]

theorem cufNodesList_eq_filterMap (lines : List String) (g : Scope) (funcs : List String)
    (nodes : List ASTNode) :
    cufNodes lines g funcs nodes =
      (callNodesList nodes).filterMap (fun c =>
        if undefinedCallFlagged g c.1 then some (undefinedCallDiag lines funcs c.1 c.2)
        else none) := by
  match nodes with
  | [] => rw [cufNodes, callNodesList]; rfl
  | n :: rest =>
      rw [cufNodes, callNodesList, List.filterMap_append,
        cufNode_eq_filterMap lines g funcs n,
        cufNodesList_eq_filterMap lines g funcs rest]

end

/-- C6 (amended): over every document with an AST and a built table,
the undefined-function pass emits its diagnostics for exactly the call
nodes whose name is neither in the fixed built-in set nor resolvable
**in the global scope** as a symbol of kind function.  (Functions
declared only inside nested scopes are therefore flagged — the original
claim's parenthetical fails, see the counterexample.) -/
theorem checkUndefinedFunctions_characterization (doc : Document) (ast : ASTNode)
    (st : SymbolTable) (g : Scope)
    (hast : doc.ast = some ast) (hst : doc.symbolTable = some st)
    (hg : st.globalScope = some g) :
    checkUndefinedFunctions doc =
      (callNodes ast).filterMap (fun c =>
        if undefinedCallFlagged g c.1 then
          some (undefinedCallDiag doc.lines (availableFunctions g) c.1 c.2)
        else none) := by
  unfold checkUndefinedFunctions
  rw [hast, hst]
  dsimp only
  rw [hg]
  exact cufNode_eq_filterMap doc.lines g (availableFunctions g) ast

/-! ### C6 counterexample: a nested function is flagged -/

/-- `outer` declared at top level; `inner` declared inside `outer`'s
body; a call to `inner` inside the same body. -/
def nestedAst : ASTNode :=
  .mk .program "" "" 0
    [.mk .function "outer" "void" 1
      [.mk .block "" "" 1 [],
       .mk .block "" "" 1
         [.mk .function "inner" "void" 2
           [.mk .block "" "" 2 [], .mk .block "" "" 2 []],
          .mk .call "inner" "" 3 []]]]

def nestedDoc : Document :=
  { content := "func outer do\nfunc inner do\ninner||\nend\nend"
    lines := ["func outer do", "func inner do", "inner||", "end", "end"]
    ast := some nestedAst
    errors := []
    symbolTable := some (BuildSymbolTable (some nestedAst)) }

mutual

/-- Whether the AST declares a function node of the given name
anywhere (the spec-side sense of "declared anywhere in the file"). -/
def declaresFunction (name : String) (node : ASTNode) : Bool :=
  match node with
  | .mk ntype value _ _ children =>
      (ntype == .function && value == name) || declaresFunctionList name children

def declaresFunctionList (name : String) (nodes : List ASTNode) : Bool :=
  match nodes with
  | [] => false
  | n :: rest => declaresFunction name n || declaresFunctionList name rest

end

/-- C6 counterexample: `inner` is declared as a function in the file
(inside a nested scope), yet the pass flags the call to it with an
`undefined-function` diagnostic, because the lookup is restricted to
the global scope — refuting the claim's "a function declared anywhere
in the file, including inside a nested scope, must not be flagged". -/
theorem undefined_function_nested_counterexample :
    declaresFunction "inner" nestedAst = true ∧
      (checkUndefinedFunctions nestedDoc).map (fun d => d.code) = ["undefined-function"] :=
  ⟨rfl, rfl⟩

/-- C6 witness: the characterization applied to the concrete nested
document. -/
theorem checkUndefinedFunctions_characterization_witness :
    checkUndefinedFunctions nestedDoc =
      (callNodes nestedAst).filterMap (fun c =>
        if undefinedCallFlagged (finalizeState (walkNode [⟨[], []⟩] nestedAst 0)) c.1 then
          some (undefinedCallDiag nestedDoc.lines
            (availableFunctions (finalizeState (walkNode [⟨[], []⟩] nestedAst 0))) c.1 c.2)
        else none) :=
  checkUndefinedFunctions_characterization nestedDoc nestedAst
    (BuildSymbolTable (some nestedAst))
    (finalizeState (walkNode [⟨[], []⟩] nestedAst 0)) rfl rfl rfl

/-! ## C4: boundary conversions to 0-based `uint32` coordinates -/

/-- The parse-error conversion loop of `publishDiagnostics`: the start
column is decremented and clamped at zero; the end column is
`column + 10`, floored at `startCol + 1`; both line fields are
`uint32(err.Line - 1)` with no clamping. -/
def parseErrorToDiagnostic (err : ParseError) : Diagnostic :=
  let startCol : Int := if err.column - 1 < 0 then 0 else err.column - 1
  let endCol : Int := if err.column + 10 < startCol then startCol + 1 else err.column + 10
  { startLine := toUInt32Nat (err.line - 1)
    startChar := toUInt32Nat startCol
    endLine := toUInt32Nat (err.line - 1)
    endChar := toUInt32Nat endCol
    message := err.message
    code := "" }

/-- The range emitted for a symbol by `symbolToDocumentSymbol` (both
its `Range` and `SelectionRange`) and by `handleDefinition`:
`(uint32(line-1), uint32(column))` to
`(uint32(line-1), uint32(column+len(name)))` — the line is decremented
without clamping and the column is emitted as stored. -/
def symbolRange (sym : Symbol) : (Nat × Nat) × (Nat × Nat) :=
  ((toUInt32Nat (sym.line - 1), toUInt32Nat sym.column),
   (toUInt32Nat (sym.line - 1), toUInt32Nat (sym.column + sym.name.length)))

/-- C4 counterexample: a parse error carrying line 0 — a value the
claim explicitly covers — is emitted with start line 4294967295 (the
`uint32` wrap of -1), not the claimed clamped 0. -/
theorem conversion_line_zero_wraps :
    (parseErrorToDiagnostic { line := 0, column := 5, message := "m" }).startLine
        = 4294967295 ∧ (4294967295 : Nat) ≠ 0 :=
  ⟨rfl, by decide⟩

/-- C4 (amended): the parse-error start column subtracts 1 and clamps
negatives (so column 0 is emitted at 0); every line conversion
subtracts 1 with **no** clamping (an internal line 0 wraps to
4294967295 in the unsigned protocol field), and symbol columns are
emitted as stored, without the subtraction. -/
theorem conversions_clamp_only_columns (err : ParseError) (sym : Symbol) :
    (err.column ≤ 0 → (parseErrorToDiagnostic err).startChar = 0) ∧
    (1 ≤ err.column ∧ err.column ≤ 4294967296 →
      (parseErrorToDiagnostic err).startChar = (err.column - 1).toNat) ∧
    (1 ≤ err.line ∧ err.line ≤ 4294967296 →
      (parseErrorToDiagnostic err).startLine = (err.line - 1).toNat) ∧
    (err.line = 0 → (parseErrorToDiagnostic err).startLine = 4294967295) ∧
    (1 ≤ sym.line ∧ sym.line ≤ 4294967296 →
      (symbolRange sym).1.1 = (sym.line - 1).toNat) ∧
    (sym.line = 0 → (symbolRange sym).1.1 = 4294967295) ∧
    (0 ≤ sym.column ∧ sym.column < 4294967296 →
      (symbolRange sym).1.2 = sym.column.toNat) := by
  refine ⟨?_, ?_, ?_, ?_, ?_, ?_, ?_⟩
  · intro h
    unfold parseErrorToDiagnostic
    dsimp only
    rw [if_pos (by omega : err.column - 1 < (0 : Int))]
    rfl
  · rintro ⟨h1, h2⟩
    unfold parseErrorToDiagnostic
    dsimp only
    rw [if_neg (by omega : ¬ err.column - 1 < (0 : Int))]
    unfold toUInt32Nat
    omega
  · rintro ⟨h1, h2⟩
    unfold parseErrorToDiagnostic toUInt32Nat
    dsimp only
    omega
  · intro h
    unfold parseErrorToDiagnostic toUInt32Nat
    dsimp only
    rw [h]
    rfl
  · rintro ⟨h1, h2⟩
    unfold symbolRange toUInt32Nat
    dsimp only
    omega
  · intro h
    unfold symbolRange toUInt32Nat
    dsimp only
    rw [h]
    rfl
  · rintro ⟨h1, h2⟩
    unfold symbolRange toUInt32Nat
    dsimp only
    omega

/-- C4 amended-statement witness: a line-1, column-0 parse error (the
column-0 case the claim names) is emitted at the clamped column 0 and
line 0; a line-0 symbol wraps. -/
theorem conversions_clamp_only_columns_witness :
    (parseErrorToDiagnostic { line := 1, column := 0, message := "m" }).startChar = 0 ∧
      (parseErrorToDiagnostic { line := 1, column := 0, message := "m" }).startLine
        = ((1 : Int) - 1).toNat ∧
      (symbolRange { name := "f", kind := .function, type := "", line := 0, column := 0 }).1.1
        = 4294967295 := by
  have h := conversions_clamp_only_columns { line := 1, column := 0, message := "m" }
    { name := "f", kind := .function, type := "", line := 0, column := 0 }
  exact ⟨h.1 (by decide), h.2.2.1 (by decide), h.2.2.2.2.2.1 rfl⟩

/-! ## C7: the parse-timeout document state -/

/-- The synthetic parse error of the timeout branch of
`handleDidOpen` / `handleDidChange`. -/
def timeoutParseError : ParseError :=
  { line := 1, column := 1, message := "Parser timeout - file may be too complex" }

/-- The Document as the timeout branch leaves it: content and cached
lines as received, nil AST and tokens, exactly the synthetic timeout
error, and — because the AST is nil — a fresh empty symbol table from
`NewSymbolTable()`. -/
def timeoutDocument (content : String) : Document :=
  { content := content
    lines := content.splitOn "\n"
    ast := none
    errors := [timeoutParseError]
    symbolTable := some NewSymbolTable }

/-- C7.  A parse that exceeds the timeout deadline yields a document
with nil AST, an error list holding exactly the one synthetic timeout
diagnostic, and a symbol table answering every `Lookup` with none. -/
theorem timeout_document_state (content : String) (name : String) :
    (timeoutDocument content).ast = none ∧
      (timeoutDocument content).errors = [timeoutParseError] ∧
      ((timeoutDocument content).errors).length = 1 ∧
      (timeoutDocument content).symbolTable = some NewSymbolTable ∧
      NewSymbolTable.Lookup name = Except.ok none :=
  ⟨rfl, rfl, rfl, rfl, rfl⟩

/-! ## Completion (`handleCompletion`, dot context) -/

/-- `isIdentifierChar` from the completion source: ASCII letters and
digits (the underscore is admitted separately at each call site). -/
def isIdentifierChar (c : Char) : Bool :=
  ('a' ≤ c && c ≤ 'z') || ('A' ≤ c && c ≤ 'Z') || ('0' ≤ c && c ≤ '9')

/-- The backward identifier scan
(`for start >= 0 && (isIdentifierChar(line[start]) || line[start] == '_') start--; start++`):
given the position one past the last character of the run, returns the
first index of the run. -/
def scanIdentBack (cs : List Char) : Nat → Nat
  | 0 => 0
  | i + 1 =>
      if isIdentifierChar (cs.getD i ' ') || cs.getD i ' ' == '_' then scanIdentBack cs i
      else i + 1

/-- `line[a:b]` on the character list. -/
def sliceChars (cs : List Char) (a b : Nat) : List Char := (cs.drop a).take (b - a)

/-- The backward search for an opening quote
(`for identStart >= 0 && line[identStart] != quoteChar identStart--`):
the largest index at or below the given one holding the quote, if
any. -/
def searchBack (cs : List Char) (quote : Char) : Nat → Option Nat
  | 0 => if cs.getD 0 ' ' == quote then some 0 else none
  | i + 1 => if cs.getD (i + 1) ' ' == quote then some (i + 1) else searchBack cs quote i

/-- The bracket-balance backward scan of the array/dict literal
detection.  Positions are shifted by one (`0` encodes Go's `-1`); the
returned value is `identStart` after the final `identStart++`. -/
def bracketScan (cs : List Char) (openC closeC : Char) : Nat → Nat → Nat
  | _count, 0 => 0
  | count, p + 1 =>
      if count = 0 then p + 1
      else
        let c := cs.getD p ' '
        let count' := if c = closeC then count + 1 else if c = openC then count - 1 else count
        bracketScan cs openC closeC count' p

/-- What precedes the dot in a detected dot-completion context. -/
inductive DotContext where
  | strLit
  | arrLit
  | dictLit
  | ident (beforeDot : String)
deriving DecidableEq, Repr

/-- The dot-context detection of `handleCompletion`: look one character
before the typed prefix for a `'.'`, then classify what precedes it as
a string literal (closing quote with a matching opening quote), an
array literal (`]` with a balancing `[`), a dict literal (`}` with a
balancing `{`), or a bare identifier run; `none` when no classification
succeeds (the handler then falls back to the non-dot path). -/
def detectDotContext (cs : List Char) (posChar : Nat) (pre : List Char) : Option DotContext :=
  if posChar = 0 then none
  else
    let checkPos : Int := (posChar : Int) - pre.length - 1
    if 0 ≤ checkPos ∧ checkPos < cs.length then
      if cs.getD checkPos.toNat ' ' = '.' then
        match checkPos.toNat with
        | 0 => none
        | ce + 1 =>
            let endChar := cs.getD ce ' '
            if endChar = '"' ∨ endChar = '\'' then
              match ce with
              | 0 => none
              | cq + 1 =>
                  match searchBack cs endChar cq with
                  | some _ => some .strLit
                  | none => none
            else if endChar = ']' then
              if cs.getD (bracketScan cs '[' ']' 1 ce) ' ' = '[' then some .arrLit else none
            else if endChar = '}' then
              if cs.getD (bracketScan cs '{' '}' 1 ce) ' ' = '{' then some .dictLit else none
            else
              let ws := scanIdentBack cs (ce + 1)
              if ws ≤ ce then some (.ident (String.mk (sliceChars cs ws (ce + 1))))
              else none
      else none
    else none

/-- A completion item: label, protocol item-kind code, detail,
documentation, insert text. -/
structure CompletionItem where
  label : String
  kind : Nat
  detail : String
  documentation : String
  insertText : String
deriving DecidableEq, Repr

/-- `prefix == "" || strings.HasPrefix(label, prefix)`. -/
def matchesPre (pre : List Char) (label : String) : Bool :=
  pre.isEmpty || pre.isPrefixOf label.toList

/-- One built-in method entry (label, detail, description,
parameter-slot placeholder). -/
structure MethodSpec where
  label : String
  detail : String
  description : String
  params : String

/-- The fixed string-method table of `addStringMethods`. -/
def stringMethods : List MethodSpec :=
  [⟨"length", "Get string length", "Returns the number of characters in the string", "||"⟩,
   ⟨"upper", "Convert to uppercase", "Returns the string in uppercase", "||"⟩,
   ⟨"lower", "Convert to lowercase", "Returns the string in lowercase", "||"⟩,
   ⟨"replace", "Replace substring", "Replaces occurrences of a substring with another", "|old, new|"⟩,
   ⟨"contains", "Check if contains substring", "Returns true if the string contains the substring", "|substring|"⟩,
   ⟨"camel_case", "Convert to camelCase", "Converts the string to camelCase", "||"⟩,
   ⟨"snake_case", "Convert to snake_case", "Converts the string to snake_case", "||"⟩,
   ⟨"pascal_case", "Convert to PascalCase", "Converts the string to PascalCase", "||"⟩,
   ⟨"kebab_case", "Convert to kebab-case", "Converts the string to kebab-case", "||"⟩,
   ⟨"match", "Match regex pattern", "Tests if the string matches a regular expression", "|pattern|"⟩,
   ⟨"split", "Split string", "Splits the string by a delimiter", "|delimiter|"⟩,
   ⟨"count", "Count occurrences", "Counts occurrences of a character or substring", "|substring|"⟩,
   ⟨"lpad", "Left pad string", "Pads the string on the left to a specified length", "|length, char|"⟩,
   ⟨"rpad", "Right pad string", "Pads the string on the right to a specified length", "|length, char|"⟩,
   ⟨"pad", "Pad string both sides", "Pads the string on both sides to a specified length", "|length, char|"⟩,
   ⟨"strip", "Trim whitespace", "Removes leading and trailing whitespace", "||"⟩,
   ⟨"get_file", "Get filename from path", "Extracts the filename from a file path", "||"⟩]

/-- The fixed array-method table of `addArrayMethods`. -/
def arrayMethods : List MethodSpec :=
  [⟨"length", "Get array length", "Returns the number of elements in the array", "||"⟩,
   ⟨"push", "Add element", "Adds an element to the end of the array", "|element|"⟩,
   ⟨"pop", "Remove last element", "Removes and returns the last element", "||"⟩,
   ⟨"sort", "Sort array", "Sorts the array in place", "||"⟩,
   ⟨"reverse", "Reverse array", "Reverses the array in place", "||"⟩,
   ⟨"contains", "Check if contains", "Returns true if array contains element", "|element|"⟩,
   ⟨"find", "Find element", "Returns index of element or -1", "|element|"⟩,
   ⟨"filter", "Filter array", "Returns new array with elements matching condition", "|condition|"⟩,
   ⟨"map", "Map array", "Returns new array with transformed elements", "|transform|"⟩,
   ⟨"join", "Join to string", "Joins array elements into a string", "|separator|"⟩,
   ⟨"slice", "Get subarray", "Returns a portion of the array", "|start, end|"⟩]

/-- The fixed dict-method table of `addDictMethods`. -/
def dictMethods : List MethodSpec :=
  [⟨"size", "Get dictionary size", "Returns the number of key-value pairs in the dictionary", "||"⟩,
   ⟨"clear", "Clear all entries", "Removes all entries from the dictionary", "||"⟩,
   ⟨"has", "Check if key exists", "Returns true if the key exists in the dictionary", "|key|"⟩,
   ⟨"has_all", "Check if all keys exist", "Returns true if all keys in the array exist", "|keys_array|"⟩,
   ⟨"keys", "Get all keys", "Returns an array of all dictionary keys", "||"⟩,
   ⟨"values", "Get all values", "Returns an array of all dictionary values", "||"⟩,
   ⟨"sort", "Sort by keys", "Returns a new dictionary sorted by keys", "||"⟩,
   ⟨"stable_sort", "Stable sort by keys", "Returns a new dictionary with stable sort by keys", "||"⟩,
   ⟨"merge", "Merge dictionaries", "Merges another dictionary into this one", "|other_dict|"⟩]

/-- The shared append-filter of the three method helpers: each table
entry whose label matches the typed prefix becomes a method item
(kind 2) with `label + params` as insert text. -/
def addMethodItems (methods : List MethodSpec) (items : List CompletionItem)
    (pre : List Char) : List CompletionItem :=
  items ++ methods.filterMap (fun m =>
    if matchesPre pre m.label then
      some { label := m.label, kind := 2, detail := m.detail
             documentation := m.description, insertText := m.label ++ m.params }
    else none)

def addStringMethods (items : List CompletionItem) (pre : List Char) : List CompletionItem :=
  addMethodItems stringMethods items pre

def addArrayMethods (items : List CompletionItem) (pre : List Char) : List CompletionItem :=
  addMethodItems arrayMethods items pre

def addDictMethods (items : List CompletionItem) (pre : List Char) : List CompletionItem :=
  addMethodItems dictMethods items pre

/-- The fields belonging to the struct of the given name: in a table
built by `walkNode`, a struct declaration registers its `struct` symbol
and then, immediately after it, one `structField` symbol per field, so
the named struct's own fields are exactly the contiguous run of field
symbols following its entry in declaration order. -/
def fieldsAfterStruct (typeName : String) : SymMap → List (String × Symbol)
  | [] => []
  | p :: rest =>
      if p.2.kind = .struct ∧ p.2.name = typeName then
        rest.takeWhile (fun q => q.2.kind == .structField)
      else fieldsAfterStruct typeName rest

/-- Modelled from the spec: `SymbolTable.GetStructFields` is not among
the provided source files (only its call sites in the completion
handler are).  Per the spec, "if the symbol's type names a known
struct, its fields are offered": when a struct symbol of the given
name exists, the result is that struct's **own** field symbols (the
run of `structField` symbols its declaration registered right after
it), keyed by field name; an unknown struct name — or a name bound to
no struct — yields nothing. -/
def SymbolTable.GetStructFields (st : SymbolTable) (typeName : String) :
    List (String × Symbol) :=
  match st.globalScope with
  | none => []
  | some g => fieldsAfterStruct typeName g.symbols

/-- The struct-field completion items (kind 5, detail = field type),
filtered by the typed prefix. -/
def structFieldItems (fields : List (String × Symbol)) (pre : List Char) :
    List CompletionItem :=
  fields.filterMap (fun p =>
    if matchesPre pre p.1 then
      some { label := p.1, kind := 5, detail := p.2.type
             documentation := "", insertText := "" }
    else none)

/-- The dot-context branch of `handleCompletion`: literal contexts go
straight to their method table; a bare identifier is looked up in a
freshly built symbol table; constants yield no member completions;
string/array/dict-typed symbols yield their method table; a
variable whose type has struct fields yields those fields; in every
remaining case the result is empty — there is no fallback to the
keyword/operator/global-symbol lists. -/
def dotCompletionItems (ast : Option ASTNode) (pre : List Char) (ctx : DotContext) :
    List CompletionItem :=
  match ctx with
  | .strLit => addStringMethods [] pre
  | .arrLit => addArrayMethods [] pre
  | .dictLit => addDictMethods [] pre
  | .ident beforeDot =>
      match ast with
      | none => []
      | some a =>
          let st := BuildSymbolTable (some a)
          match st.Lookup beforeDot with
          | .ok (some sym) =>
              if sym.kind = .constant then []
              else if sym.type = "string" then addStringMethods [] pre
              else if sym.type = "array" then addArrayMethods [] pre
              else if sym.type = "dict" then addDictMethods [] pre
              else if sym.kind = .variable ∨ sym.kind = .constant then
                let fields := st.GetStructFields sym.type
                if fields.length > 0 then structFieldItems fields pre else []
              else []
          | .ok none => []
          | .error _ => []

/-- The keyword table of the non-dot path. -/
def keywordList : List String :=
  ["if", "else", "elseif", "anif", "then",
   "loop", "in", "to", "do",
   "func", "return",
   "switch", "on",
   "when",
   "import", "program",
   "ahoy",
   "is", "not", "and", "or",
   "break", "skip",
   "true", "false",
   "enum", "struct", "type",
   "int", "float", "string", "bool", "dict", "vector2", "color"]

/-- The word-operator table of the non-dot path. -/
def operatorList : List (String × String) :=
  [("plus", "addition operator (+)"),
   ("minus", "subtraction operator (-)"),
   ("times", "multiplication operator (*)"),
   ("div", "division operator (/)"),
   ("mod", "modulo operator (%)"),
   ("lesser", "less than operator (<)"),
   ("greater", "greater than operator (>)")]

/-- The non-dot path: filtered keywords, filtered word operators, then
filtered global functions, variables, constants, and enum values read
from a freshly built symbol table. -/
def nonDotItems (ast : Option ASTNode) (pre : List Char) : List CompletionItem :=
  let kw := keywordList.filterMap (fun k =>
    if matchesPre pre k then
      some { label := k, kind := 14, detail := "keyword", documentation := "", insertText := "" }
    else none)
  let ops := operatorList.filterMap (fun op =>
    if matchesPre pre op.1 then
      some { label := op.1, kind := 24, detail := op.2, documentation := "", insertText := "" }
    else none)
  let symItems :=
    match ast with
    | none => []
    | some a =>
        match (BuildSymbolTable (some a)).globalScope with
        | none => []
        | some g =>
            let fns := g.symbols.filterMap (fun p =>
              if p.2.kind = .function ∧ matchesPre pre p.2.name = true then
                some { label := p.2.name, kind := 3
                       detail := if p.2.type ≠ "" ∧ p.2.type ≠ "void" then "func -> " ++ p.2.type else "func"
                       documentation := "", insertText := "" }
              else none)
            let vars := g.symbols.filterMap (fun p =>
              if p.2.kind = .variable ∧ matchesPre pre p.2.name = true then
                some { label := p.2.name, kind := 6, detail := p.2.type
                       documentation := "", insertText := "" }
              else none)
            let consts := g.symbols.filterMap (fun p =>
              if p.2.kind = .constant ∧ matchesPre pre p.2.name = true then
                some { label := p.2.name, kind := 21, detail := p.2.type
                       documentation := "", insertText := "" }
              else none)
            let enums := g.symbols.filterMap (fun p =>
              if p.2.kind = .enumValue ∧ matchesPre pre p.2.name = true then
                some { label := p.2.name, kind := 20, detail := p.2.type
                       documentation := "", insertText := "" }
              else none)
            fns ++ vars ++ consts ++ enums
  kw ++ ops ++ symItems

/-- `handleCompletion`: bounds and length guards, prefix extraction,
dot-context dispatch, non-dot fallback. -/
def handleCompletion (doc : Document) (posLine posChar : Nat) : List CompletionItem :=
  if posLine ≥ doc.lines.length then []
  else
    let currentLine := doc.lines.getD posLine ""
    if currentLine.length > 10000 then []
    else if posChar > currentLine.length then []
    else
      let cs := currentLine.toList
      let pre := if posChar = 0 then [] else sliceChars cs (scanIdentBack cs posChar) posChar
      match detectDotContext cs posChar pre with
      | some ctx => dotCompletionItems doc.ast pre ctx
      | none => nonDotItems doc.ast pre

/-- C8.  In dot context over a bare identifier, the member resolution
behaves as claimed: a constant yields no member completions; a
string/array/dict-typed symbol yields exactly the corresponding fixed
method table filtered by the typed prefix; a variable whose type has
struct fields yields those fields filtered by the prefix, and an empty
field set yields the empty list; an unresolved identifier yields the
empty list — never the keyword/operator/global-symbol fallback. -/
theorem dot_completion_member_resolution (ast : ASTNode) (pre : List Char)
    (beforeDot : String) (sym : Symbol) :
    ((BuildSymbolTable (some ast)).Lookup beforeDot = Except.ok (some sym) →
      (sym.kind = .constant → dotCompletionItems (some ast) pre (.ident beforeDot) = []) ∧
      (sym.kind ≠ .constant → sym.type = "string" →
        dotCompletionItems (some ast) pre (.ident beforeDot) = addStringMethods [] pre) ∧
      (sym.kind ≠ .constant → sym.type = "array" →
        dotCompletionItems (some ast) pre (.ident beforeDot) = addArrayMethods [] pre) ∧
      (sym.kind ≠ .constant → sym.type = "dict" →
        dotCompletionItems (some ast) pre (.ident beforeDot) = addDictMethods [] pre) ∧
      (sym.kind = .variable → sym.type ≠ "string" → sym.type ≠ "array" → sym.type ≠ "dict" →
        dotCompletionItems (some ast) pre (.ident beforeDot) =
          (if ((BuildSymbolTable (some ast)).GetStructFields sym.type).length > 0 then
            structFieldItems ((BuildSymbolTable (some ast)).GetStructFields sym.type) pre
          else []))) ∧
    ((BuildSymbolTable (some ast)).Lookup beforeDot = Except.ok none →
      dotCompletionItems (some ast) pre (.ident beforeDot) = []) := by
  constructor
  · intro hlook
    refine ⟨?_, ?_, ?_, ?_, ?_⟩
    · intro hk
      unfold dotCompletionItems
      dsimp only
      rw [hlook]
      dsimp only
      rw [if_pos hk]
    · intro hk ht
      unfold dotCompletionItems
      dsimp only
      rw [hlook]
      dsimp only
      rw [if_neg hk, if_pos ht]
    · intro hk ht
      unfold dotCompletionItems
      dsimp only
      rw [hlook]
      dsimp only
      rw [if_neg hk, if_neg (by simp [ht]), if_pos ht]
    · intro hk ht
      unfold dotCompletionItems
      dsimp only
      rw [hlook]
      dsimp only
      rw [if_neg hk, if_neg (by simp [ht]), if_neg (by simp [ht]), if_pos ht]
    · intro hk h1 h2 h3
      unfold dotCompletionItems
      dsimp only
      rw [hlook]
      dsimp only
      rw [if_neg (by rw [hk]; intro hc; exact absurd hc (by intro h; cases h)),
        if_neg h1, if_neg h2, if_neg h3, if_pos (Or.inl hk)]
  · intro hlook
    unfold dotCompletionItems
    dsimp only
    rw [hlook]

/-! ### C8 witness: `myStr.up` over a declared string variable -/

/-- An AST declaring `myStr` as a string variable. -/
def myStrAst : ASTNode :=
  .mk .program "" "" 0
    [.mk .variableDeclaration "myStr" "" 1 [.mk .strLit "hello" "" 1 []]]

def myStrDoc : Document :=
  { content := "myStr: 'hello'\nmyStr.up"
    lines := ["myStr: 'hello'", "myStr.up"]
    ast := some myStrAst
    errors := []
    symbolTable := some (BuildSymbolTable (some myStrAst)) }

/-- The string-variable symbol the build produces for `myStr`. -/
def myStrSym : Symbol :=
  { name := "myStr", kind := .variable, type := "string", line := 1, column := 0 }

/-- C8 witness: instantiating the member-resolution theorem at `myStr`
(a string variable) with typed prefix `up` yields exactly the filtered
string-method table; and the full handler, at the cursor right after
`myStr.up` on line 2, returns exactly that list (a single `upper`
method item, no keyword or global-symbol completions). -/
theorem dot_completion_member_resolution_witness :
    dotCompletionItems (some myStrAst) ("up".toList) (.ident "myStr")
        = addStringMethods [] ("up".toList) ∧
      handleCompletion myStrDoc 1 8 = addStringMethods [] ("up".toList) ∧
      (addStringMethods [] ("up".toList)).map (fun i => i.label) = ["upper"] :=
  ⟨(((dot_completion_member_resolution myStrAst ("up".toList) "myStr" myStrSym).1
      rfl).2.1) (by decide) rfl,
   by rfl,
   by rfl⟩

/-- An AST declaring two structs: `Point` with fields `x`, `y` and
`Size` with field `w`. -/
def twoStructAst : ASTNode :=
  .mk .program "" "" 0
    [.mk .structDeclaration "Point" "" 1
       [.mk .identifier "x" "" 1 [], .mk .identifier "int" "" 1 [],
        .mk .identifier "y" "" 2 [], .mk .identifier "int" "" 2 []],
     .mk .structDeclaration "Size" "" 3
       [.mk .identifier "w" "" 3 [], .mk .identifier "int" "" 3 []]]

/-- `GetStructFields` separates structs: with both `Point` and `Size`
declared, each name yields only that struct's own fields — never the
other struct's. -/
theorem getStructFields_only_named_struct :
    ((BuildSymbolTable (some twoStructAst)).GetStructFields "Point").map (fun p => p.1)
        = ["x", "y"] ∧
      ((BuildSymbolTable (some twoStructAst)).GetStructFields "Size").map (fun p => p.1)
        = ["w"] :=
  ⟨rfl, rfl⟩

/-! ## Code actions (`handleCodeAction`) -/

/-- Go `strings.Contains` over character lists. -/
def listContainsSub (sub : List Char) : List Char → Bool
  | [] => sub.isEmpty
  | c :: rest => sub.isPrefixOf (c :: rest) || listContainsSub sub rest

def containsSubstr (s sub : String) : Bool := listContainsSub sub.toList s.toList

/-- One text edit of a workspace edit. -/
structure TextEdit where
  startLine : Nat
  startChar : Nat
  endLine : Nat
  endChar : Nat
  newText : String
deriving DecidableEq, Repr

/-- A code action: title, kind (`"quickfix"` / `"refactor"`), and its
edits. -/
structure CodeAction where
  title : String
  kind : String
  edits : List TextEdit
deriving DecidableEq, Repr

/-- A protocol range parameter (0-based `uint32` coordinates). -/
structure RangeModel where
  startLine : Nat
  startChar : Nat
  endLine : Nat
  endChar : Nat
deriving DecidableEq, Repr

mutual

/-- The `findProgram` closure shared by the program-position check and
the move-to-top action: the first `NODE_PROGRAM_DECLARATION` in
pre-order. -/
def findProgramNode (node : ASTNode) : Option ASTNode :=
  match node with
  | .mk ntype _ _ _ children =>
      if ntype = .programDeclaration then some node else findProgramNodeList children

def findProgramNodeList (nodes : List ASTNode) : Option ASTNode :=
  match nodes with
  | [] => none
  | n :: rest =>
      match findProgramNode n with
      | some r => some r
      | none => findProgramNodeList rest

end

/-- `createMoveProgramToTopAction`: find the program-declaration node,
read (and trim) its line, and emit the paired delete-line/insert-at-top
edit. -/
def createMoveProgramToTopAction (doc : Document) : Option CodeAction :=
  match doc.ast with
  | none => none
  | some ast =>
      match findProgramNode ast with
      | none => none
      | some node =>
          let programText :=
            if node.line > 0 ∧ node.line ≤ doc.lines.length then
              (doc.lines.getD (node.line - 1).toNat "").trim
            else ""
          if programText = "" then none
          else
            some
              { title := "Move program declaration to top of file"
                kind := "quickfix"
                edits :=
                  [{ startLine := toUInt32Nat (node.line - 1), startChar := 0
                     endLine := toUInt32Nat node.line, endChar := 0, newText := "" },
                   { startLine := 0, startChar := 0, endLine := 0, endChar := 0
                     newText := programText ++ "\n\n" }] }

/-- `generateQuickFixes`: pattern-match the diagnostic message or code
and synthesize the minimal insertion (or the program-move pair). -/
def generateQuickFixes (doc : Document) (diag : Diagnostic) : List CodeAction :=
  if doc.symbolTable.isNone = true then []
  else
    let moveFix :=
      if containsSubstr diag.message "Program declaration must be on the first line"
          || diag.code == "program-position" then
        match createMoveProgramToTopAction doc with
        | some a => [a]
        | none => []
      else []
    let doFix :=
      if containsSubstr diag.message "expected 'do'" || containsSubstr diag.message "missing 'do'" then
        [{ title := "Add 'do' keyword", kind := "quickfix"
           edits := [{ startLine := diag.endLine, startChar := diag.endChar
                       endLine := diag.endLine, endChar := diag.endChar, newText := " do" }] }]
      else []
    let endFix :=
      if containsSubstr diag.message "expected 'end'" || containsSubstr diag.message "missing 'end'" then
        [{ title := "Add 'end' keyword", kind := "quickfix"
           edits := [{ startLine := diag.endLine + 1, startChar := 0
                       endLine := diag.endLine + 1, endChar := 0, newText := "end\n" }] }]
      else []
    let thenFix :=
      if containsSubstr diag.message "expected 'then'" || containsSubstr diag.message "missing 'then'" then
        [{ title := "Add 'then' keyword", kind := "quickfix"
           edits := [{ startLine := diag.endLine, startChar := diag.endChar
                       endLine := diag.endLine, endChar := diag.endChar, newText := " then" }] }]
      else []
    let colonFix :=
      if containsSubstr diag.message "expected ':'" || containsSubstr diag.message "missing assignment" then
        [{ title := "Add ':' for assignment", kind := "quickfix"
           edits := [{ startLine := diag.startLine, startChar := diag.startChar
                       endLine := diag.endLine, endChar := diag.endChar, newText := ": " }] }]
      else []
    moveFix ++ doFix ++ endFix ++ thenFix ++ colonFix

/-- A whole-line replacement refactor action. -/
def wordOpAction (title : String) (lineIdx : Nat) (line newText : String) : CodeAction :=
  { title := title, kind := "refactor"
    edits := [{ startLine := lineIdx, startChar := 0
                endLine := lineIdx, endChar := line.length, newText := newText }] }

/-- `generateContextActions`: bounds guard, the two line-length
ceilings (10000 and 5000), then the documentation and word-operator
refactors keyed off raw line text. -/
def generateContextActions (doc : Document) (rng : RangeModel) : List CodeAction :=
  if rng.startLine ≥ doc.lines.length then []
  else
    let line := doc.lines.getD rng.startLine ""
    if line.length > 10000 then []
    else if line.length > 5000 then []
    else
      let docFix :=
        if containsSubstr line "func " then
          [{ title := "Add function documentation", kind := "refactor"
             edits := [{ startLine := rng.startLine, startChar := 0
                         endLine := rng.startLine, endChar := 0
                         newText := "? Function description\n" }] }]
        else []
      let plusFix :=
        if containsSubstr line " plus " then
          [wordOpAction "Convert 'plus' to '+'" rng.startLine line (line.replace " plus " " + ")]
        else []
      let minusFix :=
        if containsSubstr line " minus " then
          [wordOpAction "Convert 'minus' to '-'" rng.startLine line (line.replace " minus " " - ")]
        else []
      let timesFix :=
        if containsSubstr line " times " then
          [wordOpAction "Convert 'times' to '*'" rng.startLine line (line.replace " times " " * ")]
        else []
      let isFix :=
        if containsSubstr line " is " then
          [wordOpAction "Convert 'is' to '=='" rng.startLine line (line.replace " is " " == ")]
        else []
      docFix ++ plusFix ++ minusFix ++ timesFix ++ isFix

/-- The diagnostic loop of `handleCodeAction`: at most 5 diagnostics
are consumed, and the loop also stops once 10 actions have
accumulated. -/
def processDiags (doc : Document) (diags : List Diagnostic) (diagCount : Nat)
    (actions : List CodeAction) : List CodeAction :=
  match diags with
  | [] => actions
  | d :: rest =>
      if diagCount ≥ 5 then actions
      else
        let actions' := actions ++ generateQuickFixes doc d
        if actions'.length ≥ 10 then actions'
        else processDiags doc rest (diagCount + 1) actions'

/-- The body of `handleCodeAction` (inside its timeout/panic guard):
the nil/empty-document checks, the capped diagnostic loop, the
context actions added only below 8 accumulated actions, and the final
truncation to 15. -/
def handleCodeActionCore (doc : Document) (diags : List Diagnostic) (rng : RangeModel) :
    List CodeAction :=
  if doc.symbolTable.isNone = true ∨ doc.content = "" then []
  else
    let actions := processDiags doc diags 0 []
    let actions2 :=
      if actions.length < 8 then actions ++ generateContextActions doc rng else actions
    if actions2.length > 15 then actions2.take 15 else actions2

/-- How the surrounding `select`/`recover` of `handleCodeAction`
resolves: the completed result, or the deadline elapsing, or a panic
inside the worker. -/
inductive CodeActionOutcome where
  | completed (actions : List CodeAction)
  | timedOut
  | panicked
deriving DecidableEq, Repr

/-- The reply `handleCodeAction` sends for each outcome: the computed
actions, or the empty list (never an error) on timeout or panic. -/
def codeActionReply : CodeActionOutcome → List CodeAction
  | .completed actions => actions
  | .timedOut => []
  | .panicked => []

theorem truncate15_length_le (l : List CodeAction) :
    (if l.length > 15 then l.take 15 else l).length ≤ 15 := by
  by_cases h : l.length > 15
  · simp [h]
  · rw [if_neg h]
    omega

theorem processDiags_take5 (doc : Document) (diags : List Diagnostic)
    (diagCount : Nat) (actions : List CodeAction) :
    processDiags doc diags diagCount actions =
      processDiags doc (diags.take (5 - diagCount)) diagCount actions := by
  induction diags generalizing diagCount actions with
  | nil => simp
  | cons d rest ih =>
      by_cases h : diagCount ≥ 5
      · have h5 : 5 - diagCount = 0 := by omega
        rw [h5, List.take_zero]
        simp only [processDiags]
        rw [if_pos h]
      · have h5 : 5 - diagCount = (5 - (diagCount + 1)) + 1 := by omega
        rw [h5, List.take_succ_cons]
        simp only [processDiags]
        rw [if_neg h, if_neg h]
        by_cases h10 : (actions ++ generateQuickFixes doc d).length ≥ 10
        · rw [if_pos h10, if_pos h10]
        · rw [if_neg h10, if_neg h10]
          exact ih (diagCount + 1) _

/-- C9.  The code-action handler enforces its ceilings: the result
never exceeds 15 actions; only the first 5 diagnostics are ever
consulted; a line longer than the per-line ceiling produces no context
actions; and on deadline expiry or an internal panic the reply is the
empty action list, not an error. -/
theorem code_action_ceilings (doc : Document) (diags : List Diagnostic) (rng : RangeModel) :
    (handleCodeActionCore doc diags rng).length ≤ 15 ∧
      handleCodeActionCore doc diags rng = handleCodeActionCore doc (diags.take 5) rng ∧
      ((doc.lines.getD rng.startLine "").length > 5000 →
        generateContextActions doc rng = []) ∧
      codeActionReply .timedOut = [] ∧
      codeActionReply .panicked = [] := by
  refine ⟨?_, ?_, ?_, rfl, rfl⟩
  · unfold handleCodeActionCore
    by_cases hd : doc.symbolTable.isNone = true ∨ doc.content = ""
    · rw [if_pos hd]
      simp
    · rw [if_neg hd]
      exact truncate15_length_le _
  · unfold handleCodeActionCore
    have hp := processDiags_take5 doc diags 0 []
    norm_num at hp
    rw [hp]
  · intro hlen
    unfold generateContextActions
    by_cases hb : rng.startLine ≥ doc.lines.length
    · rw [if_pos hb]
    · rw [if_neg hb]
      dsimp only
      by_cases h10 : (doc.lines.getD rng.startLine "").length > 10000
      · rw [if_pos h10]
      · rw [if_neg h10, if_pos hlen]

/-- C9 witness: a 5001-character line yields no context actions, and
the timeout/panic replies are empty, via the ceilings theorem applied
at a concrete document. -/
theorem code_action_ceilings_witness :
    generateContextActions
        { content := "x", lines := [String.mk (List.replicate 5001 'a')]
          ast := none, errors := [], symbolTable := some NewSymbolTable }
        { startLine := 0, startChar := 0, endLine := 0, endChar := 0 } = [] ∧
      codeActionReply .timedOut = [] := by
  have h := code_action_ceilings
    { content := "x", lines := [String.mk (List.replicate 5001 'a')]
      ast := none, errors := [], symbolTable := some NewSymbolTable }
    []
    { startLine := 0, startChar := 0, endLine := 0, endChar := 0 }
  refine ⟨h.2.2.1 ?_, h.2.2.2.1⟩
  show (List.replicate 5001 'a').length > 5000
  rw [List.length_replicate]
  omega

end AhoyLsp
